import Mathlib

/-!
Shallow embedding of the service runtime manager
(src/service/runtime/manager/manager.go) of the micro repository.

The manager orchestrates four collaborators: the durable Store of service
records, the Execution Backend ("Runtime"), the optional Builder and the
Blob Store.  The collaborators themselves, and the small helper functions
of the manager package that wrap them (checkoutSource, writeService,
readServices, deleteService, createServiceInRuntime, updateServiceInRuntime,
listNamespaces), are outside the embedded file; their outcomes are supplied
by an environment of oracles (`Env`), and the Store contents are threaded
explicitly.  Each manager operation returns its Go error value, the Store
contents after the call, and the ordered list of collaborator calls it made;
a `go ...` statement of the Go source is recorded as a deferred-task marker
(`Effect.goBuildAndRun`, `Effect.goBuildAndUpdate`,
`Effect.goCleanupBlobStore`, `Effect.goWatchServices`) and its body is not
executed synchronously, exactly as in the source.
-/

namespace Micro

/-- Service status enumeration of go-micro v3 runtime
(gorun.Pending, gorun.Building, runtime.Starting, ...). -/
inductive Status
  | unknown
  | pending
  | building
  | starting
  | running
  | stopping
  | stopped
  | error
deriving DecidableEq, Repr

/-- Go error values the manager compares against sentinels:
`runtime.ErrNotFound` and `runtime.ErrAlreadyExists` are distinguished
sentinel values, every other error is opaque. -/
inductive Err
  | notFound
  | alreadyExists
  | other (msg : String)
deriving DecidableEq, Repr

/-- Go map[string]string, embedded as an association list without
duplicate-key insertion (insertion replaces, as a Go map does). -/
abbrev Metadata := List (String × String)

/-- Map insert m[k] = v: replace the binding of k if present, else append. -/
def mset (md : Metadata) (k v : String) : Metadata :=
  match md with
  | [] => [(k, v)]
  | (k', v') :: rest => if k' = k then (k, v) :: rest else (k', v') :: mset rest k v

/-- Map lookup m[k]. -/
def mget (md : Metadata) (k : String) : Option String :=
  match md with
  | [] => none
  | (k', v) :: rest => if k' = k then some v else mget rest k

/-- runtime.Service: name, version, source reference, metadata and status. -/
structure Srv where
  name : String
  version : String
  source : String
  metadata : Metadata
  status : Status
deriving DecidableEq, Repr

/-- The manager package's `service` wrapper: the runtime.Service plus the
namespace from the options, the manager-level status and error, and the
last-updated timestamp (0 embeds Go's zero time). -/
structure StoredService where
  srv : Srv
  ns : String
  status : Status
  error : String
  updatedAt : Nat
deriving DecidableEq, Repr

/-- The durable Store contents: the list of service records, in store order. -/
abbrev Store := List StoredService

/-- Record r is keyed by namespace n, name nm and version vr. -/
def keyMatches (n nm vr : String) (r : StoredService) : Bool :=
  r.ns = n && r.srv.name = nm && r.srv.version = vr

/-- Modelled from the spec: the Store supports read-by-filter keyed by
namespace + name + version; an empty name or version in the filter matches
every record (Read passes the possibly-empty options.Service and
options.Version, Update and Delete pass exact values). -/
def matchesFilter (nm vr : String) (r : StoredService) : Bool :=
  (nm = "" || r.srv.name = nm) && (vr = "" || r.srv.version = vr)

/-- Modelled from the spec: readServices queries the Store for the records
of a namespace matching the filter, in store order.  Failures of the
underlying Store read are injected by the `Env.readErr` oracle at the call
sites. -/
def readServices (st : Store) (n nm vr : String) : List StoredService :=
  st.filter (fun r => r.ns = n && matchesFilter nm vr r)

/-- Modelled from the spec: the Store write is an upsert, keyed by
namespace + name + version ((namespace, name, version) is unique in the
Store). -/
def upsert (st : Store) (s : StoredService) : Store :=
  if st.any (keyMatches s.ns s.srv.name s.srv.version) then
    st.map (fun r => if keyMatches s.ns s.srv.name s.srv.version r then s else r)
  else st ++ [s]

/-- The grouping key `s.Name + ":" + s.Version` used by Read and
watchServices to index live backend records. -/
def skey (nm vr : String) : String :=
  nm ++ (":") ++ vr

/-- Lookup in the Go map built by ranging over the live records and keying
each by skey: a later record with the same key overwrites an earlier one,
so the lookup returns the last match. -/
def lookupLive (rs : List Srv) (k : String) : Option Srv :=
  match rs with
  | [] => none
  | r :: rest =>
    match lookupLive rest k with
    | some x => some x
    | none => if skey r.name r.version = k then some r else none

/-- Collaborator calls made by a manager operation, in order.  The `go...`
markers record a background task being launched; its body runs after the
operation has returned and is not part of the synchronous trace. -/
inductive Effect
  | checkoutSource (s : StoredService)
  | rtCreate (s : StoredService)
  | rtUpdate (s : StoredService)
  | rtDelete (nm vr : String)
  | storeWrite (s : StoredService)
  | storeDelete (s : StoredService)
  | goBuildAndRun (s : StoredService)
  | goBuildAndUpdate (s : StoredService)
  | goCleanupBlobStore (s : StoredService)
  | rtStart
  | rtStop
  | goWatchServices
deriving DecidableEq, Repr

/-- Outcomes of the external collaborators and of the wall clock.
`builder` is whether builder.DefaultBuilder is configured.  `checkout` is
checkoutSource (resolving the source reference).  `rtCreate` is modelled
from the spec: create in the Execution Backend and report the status the
backend gives the new instance ("persist with whatever status the backend
reports"); `rtUpdate`, `rtDelete`, `rtRead`, `rtStart`, `rtStop` are the
other Execution Backend calls.  `readErr`, `writeErr`, `deleteErr` inject
Store failures per namespace or record.  `listNs` is listNamespaces, and
`watchLive` the (error-ignored) runtime.Read of watchServices.  `rfc3339`
is Go's time.Time.Format(time.RFC3339) on the embedded timestamps. -/
structure Env where
  builder : Bool
  now : Nat
  rfc3339 : Nat → String
  checkout : StoredService → Except Err String
  rtCreate : StoredService → Except Err Status
  rtUpdate : StoredService → Except Err Unit
  rtDelete : String → String → Except Err Unit
  rtRead : String → String → String → Except Err (List Srv)
  rtStart : Except Err Unit
  rtStop : Except Err Unit
  readErr : String → Option Err
  writeErr : StoredService → Option Err
  deleteErr : StoredService → Option Err
  listNs : Except Err (List String)
  watchLive : String → List Srv

/-- Modelled from the spec: writeService upserts the record into the Store;
a failing Store write leaves the Store unchanged. -/
def writeService (env : Env) (st : Store) (s : StoredService) : Except Err Unit × Store :=
  match env.writeErr s with
  | some e => (Except.error e, st)
  | none => (Except.ok (), upsert st s)

/-- Modelled from the spec: deleteService removes the record with the given
record's key from the Store; a failing Store delete leaves the Store
unchanged. -/
def deleteService (env : Env) (st : Store) (s : StoredService) : Except Err Unit × Store :=
  match env.deleteErr s with
  | some e => (Except.error e, st)
  | none => (Except.ok (), st.filter (fun r => !(keyMatches s.ns s.srv.name s.srv.version r)))

/-- Namespace defaulting: options.Namespace defaults to
namespace.DefaultNamespace when empty. -/
def defaultNamespace : String :=
  "micro"

/-- The namespace after defaulting. -/
def nsOf (optNs : String) : String :=
  if optNs = "" then defaultNamespace else optNs

/-- The version after defaulting: version defaults to "latest" when empty. -/
def verOf (v : String) : String :=
  if v = "" then ("latest") else v

/-- The `service` object Create constructs (manager.go:33-38): the incoming
runtime.Service with its version defaulted, the defaulted namespace from
the options, UpdatedAt = time.Now(), and zero-valued status and error. -/
def mkService (env : Env) (srv : Srv) (optNs : String) : StoredService :=
  { srv := { srv with version := verOf srv.version }
    ns := nsOf optNs
    status := Status.unknown
    error := ""
    updatedAt := env.now }

/-- The Go assignment `srv.Source = ...` after a successful checkoutSource:
the record with its source reference replaced. -/
def withSource (s : StoredService) (src : String) : StoredService :=
  { s with srv := { s.srv with source := src } }

/-- The Go assignments of Update (manager.go:166-167): replace the record's
source with the incoming one and stamp UpdatedAt = time.Now(). -/
def replaceSource (env : Env) (s0 : StoredService) (srv : Srv) : StoredService :=
  { s0 with srv := { s0.srv with source := srv.source }, updatedAt := env.now }

/-- Create (manager.go:15-68).  With no Builder configured: checkout the
source, create in the Execution Backend tolerating ErrAlreadyExists, then
write the record to the Store.  With a Builder configured: set status
Pending, write the record to the Store, and launch buildAndRun in the
background. -/
def create (env : Env) (st : Store) (srv : Srv) (optNs : String) :
    Except Err Unit × Store × List Effect :=
  let s0 := mkService env srv optNs
  if env.builder = false then
    match env.checkout s0 with
    | Except.error e => (Except.error e, st, [Effect.checkoutSource s0])
    | Except.ok src =>
      let s1 := withSource s0 src
      match env.rtCreate s1 with
      | Except.error e =>
        if e = Err.alreadyExists then
          let w := writeService env st s1
          (w.1, w.2, [Effect.checkoutSource s0, Effect.rtCreate s1, Effect.storeWrite s1])
        else
          (Except.error e, st, [Effect.checkoutSource s0, Effect.rtCreate s1])
      | Except.ok rst =>
        let s2 := { s1 with status := rst }
        let w := writeService env st s2
        (w.1, w.2, [Effect.checkoutSource s0, Effect.rtCreate s1, Effect.storeWrite s2])
  else
    let sp := { s0 with status := Status.pending }
    let w := writeService env st sp
    match w.1 with
    | Except.error e => (Except.error e, st, [Effect.storeWrite sp])
    | Except.ok _ => (Except.ok (), w.2, [Effect.storeWrite sp, Effect.goBuildAndRun sp])

/-- One stored record merged with the live backend data (manager.go:103-131):
start from the stored runtime.Service; a non-Unknown stored status overrides
its status; a non-empty stored error is exposed at metadata key "error"; a
non-zero UpdatedAt is exposed at metadata key "started" in RFC3339; then, if
a live record exists under the same name:version key, its status overrides
the status and a non-empty live metadata "error" is exposed at metadata key
"status". -/
def mergeOne (fmt : Nat → String) (s : StoredService) (live : Option Srv) : Srv :=
  let r := s.srv
  let r := if s.status ≠ Status.unknown then { r with status := s.status } else r
  let r := if s.error ≠ "" then { r with metadata := mset r.metadata ("error") s.error } else r
  let r :=
    if s.updatedAt ≠ 0 then
      { r with metadata := mset r.metadata ("started") (fmt s.updatedAt) }
    else r
  match live with
  | none => r
  | some rs =>
    let r := { r with status := rs.status }
    if ((mget rs.metadata ("error")).getD ("")) ≠ "" then
      { r with metadata := mset r.metadata ("status") ((mget rs.metadata ("error")).getD ("")) }
    else r

/-- The merge loop of Read (manager.go:100-131) over the stored records and
the live records returned by the Execution Backend. -/
def readMerge (fmt : Nat → String) (srvs : List StoredService) (rs : List Srv) : List Srv :=
  srvs.map (fun s => mergeOne fmt s (lookupLive rs (skey s.srv.name s.srv.version)))

/-- Read (manager.go:71-134): query the Store (error propagated), query the
Execution Backend (error propagated), merge. -/
def read (env : Env) (st : Store) (optNs nm vr : String) : Except Err (List Srv) :=
  match env.readErr (nsOf optNs) with
  | some e => Except.error e
  | none =>
    match env.rtRead (nsOf optNs) nm vr with
    | Except.error e => Except.error e
    | Except.ok rs => Except.ok (readMerge env.rfc3339 (readServices st (nsOf optNs) nm vr) rs)

/-- Update (manager.go:137-199): load the record (NotFound when absent),
replace its source and UpdatedAt; with no Builder: checkout, update in the
Execution Backend, persist with status Starting and cleared error; with a
Builder: persist Pending and launch buildAndUpdate in the background. -/
def update (env : Env) (st : Store) (srv : Srv) (optNs : String) :
    Except Err Unit × Store × List Effect :=
  match env.readErr (nsOf optNs) with
  | some e => (Except.error e, st, [])
  | none =>
    match readServices st (nsOf optNs) srv.name (verOf srv.version) with
    | [] => (Except.error Err.notFound, st, [])
    | s0 :: _ =>
      let s1 := replaceSource env s0 srv
      if env.builder = false then
        match env.checkout s1 with
        | Except.error e => (Except.error e, st, [Effect.checkoutSource s1])
        | Except.ok src =>
          let s2 := withSource s1 src
          match env.rtUpdate s2 with
          | Except.error e =>
            (Except.error e, st, [Effect.checkoutSource s1, Effect.rtUpdate s2])
          | Except.ok _ =>
            let s3 := { s2 with status := Status.starting, error := "" }
            let w := writeService env st s3
            (w.1, w.2, [Effect.checkoutSource s1, Effect.rtUpdate s2, Effect.storeWrite s3])
      else
        let sp := { s1 with status := Status.pending }
        let w := writeService env st sp
        match w.1 with
        | Except.error e => (Except.error e, st, [Effect.storeWrite sp])
        | Except.ok _ => (Except.ok (), w.2, [Effect.storeWrite sp, Effect.goBuildAndUpdate sp])

/-- Delete (manager.go:202-242): load the record (NotFound when absent),
delete in the Execution Backend tolerating ErrNotFound, delete the Store
record synchronously, then launch cleanupBlobStore in the background. -/
def delete (env : Env) (st : Store) (srv : Srv) (optNs : String) :
    Except Err Unit × Store × List Effect :=
  match env.readErr (nsOf optNs) with
  | some e => (Except.error e, st, [])
  | none =>
    match readServices st (nsOf optNs) srv.name (verOf srv.version) with
    | [] => (Except.error Err.notFound, st, [])
    | s0 :: _ =>
      let afterRt : Except Err Unit × Store × List Effect :=
        match deleteService env st s0 with
        | (Except.error e, _) =>
          (Except.error e, st,
            [Effect.rtDelete srv.name (verOf srv.version), Effect.storeDelete s0])
        | (Except.ok _, st') =>
          (Except.ok (), st',
            [Effect.rtDelete srv.name (verOf srv.version), Effect.storeDelete s0,
              Effect.goCleanupBlobStore s0])
      match env.rtDelete srv.name (verOf srv.version) with
      | Except.error e =>
        if e = Err.notFound then afterRt
        else (Except.error e, st, [Effect.rtDelete srv.name (verOf srv.version)])
      | Except.ok _ => afterRt

/-- Start (manager.go:245-260): no-op when already running; otherwise mark
running, start the Execution Backend (its error propagated), then launch
watchServices in the background.  The result is the Go error, the new
running flag, and the trace. -/
def start (env : Env) (running : Bool) : Except Err Unit × Bool × List Effect :=
  if running then (Except.ok (), running, [])
  else
    match env.rtStart with
    | Except.error e => (Except.error e, true, [Effect.rtStart])
    | Except.ok _ => (Except.ok (), true, [Effect.rtStart, Effect.goWatchServices])

/-- Stop (manager.go:310-317): no-op when not running; otherwise clear the
running flag and stop the Execution Backend (its error propagated). -/
def stop (env : Env) (running : Bool) : Except Err Unit × Bool × List Effect :=
  if running = false then (Except.ok (), running, [])
  else
    match env.rtStop with
    | Except.error e => (Except.error e, false, [Effect.rtStop])
    | Except.ok _ => (Except.ok (), false, [Effect.rtStop])

/-- One stored service inside the watchServices loop (manager.go:282-305):
skip when already live under the same name:version key, skip when the
stored status is Error, Building or Stopped, otherwise create in the
Execution Backend; a creation failure is logged and the loop continues, so
the trace records the attempt in either case. -/
def watchSrv (env : Env) (running : List Srv) (s : StoredService) : List Effect :=
  if (lookupLive running (skey s.srv.name s.srv.version)).isSome then []
  else if s.status = Status.error then []
  else if s.status = Status.building then []
  else if s.status = Status.stopped then []
  else
    match env.rtCreate s with
    | Except.ok _ => [Effect.rtCreate s]
    | Except.error _ => [Effect.rtCreate s]

/-- The inner service loop of watchServices over the records of one
namespace, in order. -/
def watchSrvs (env : Env) (running : List Srv) : List StoredService → List Effect
  | [] => []
  | s :: rest => watchSrv env running s ++ watchSrvs env running rest

/-- The namespace loop of watchServices (manager.go:269-306): read the
stored services of the namespace — on failure log and return, which ends
the whole pass — read the live services (error ignored), then run the
service loop and continue with the remaining namespaces. -/
def watchLoop (env : Env) (st : Store) : List String → List Effect
  | [] => []
  | n :: rest =>
    match env.readErr n with
    | some _ => []
    | none =>
      watchSrvs env (env.watchLive n) (readServices st n ("") ("")) ++ watchLoop env st rest

/-- watchServices (manager.go:262-307): list the namespaces — on failure
log and return — then run the namespace loop. -/
def watchServices (env : Env) (st : Store) : List Effect :=
  match env.listNs with
  | Except.error _ => []
  | Except.ok nss => watchLoop env st nss

/-! Concrete collaborators used to exercise the operations on closed
inputs: every collaborator call succeeds, the backend reports Running for
new instances, and the clock reads 5. -/

/-- An environment in which every collaborator call succeeds. -/
def baseEnv : Env :=
  { builder := false
    now := 5
    rfc3339 := fun t => toString t
    checkout := fun s => Except.ok s.srv.source
    rtCreate := fun _ => Except.ok Status.running
    rtUpdate := fun _ => Except.ok ()
    rtDelete := fun _ _ => Except.ok ()
    rtRead := fun _ _ _ => Except.ok []
    rtStart := Except.ok ()
    rtStop := Except.ok ()
    readErr := fun _ => none
    writeErr := fun _ => none
    deleteErr := fun _ => none
    listNs := Except.ok [defaultNamespace]
    watchLive := fun _ => [] }

/-- A sample incoming runtime.Service. -/
def srvA : Srv :=
  { name := "billing", version := "latest", source := "github.com/m/b"
    metadata := [], status := Status.unknown }

/-! Association-list lemmas for the Go map embedding. -/

/-- Map insert then lookup of the same key yields the inserted value. -/
theorem mget_mset_self (md : Metadata) (k v : String) : mget (mset md k v) k = some v := by
  induction md with
  | nil => simp [mset, mget]
  | cons hd t ih =>
    obtain ⟨a, b⟩ := hd
    by_cases ha : a = k
    · subst ha; simp [mset, mget]
    · simp [mset, mget, ha, ih]

/-- Map insert does not disturb the lookup of a different key. -/
theorem mget_mset_ne (md : Metadata) (k k' v : String) (h : k' ≠ k) :
    mget (mset md k' v) k = mget md k := by
  induction md with
  | nil => simp [mset, mget, h]
  | cons hd t ih =>
    obtain ⟨a, b⟩ := hd
    by_cases ha : a = k'
    · subst ha; simp [mset, mget, h]
    · by_cases hak : a = k
      · subst hak; simp [mset, mget, ha]
      · simp [mset, mget, ha, hak, ih]

/-! Claim theorems. -/

/-- C9: Start and Stop are idempotent on the running flag: Start when the
Manager is already running returns nil with an empty trace (the Execution
Backend is not started again and no second reconciliation loop is
launched), and Stop when the Manager is not running returns nil with an
empty trace (the Execution Backend's Stop is not called a second time). -/
theorem start_stop_idempotent (env : Env) :
    start env true = (Except.ok (), true, []) ∧
    stop env false = (Except.ok (), false, []) :=
  ⟨rfl, rfl⟩

/-- C1: Create with a Builder configured sets the record's status to
Pending, writes it to the Store and returns immediately after that write:
the synchronous trace is the single Store write (plus the deferred
buildAndRun marker on success), the only possible error is the Store
write's, and no source checkout and no Execution Backend call happens
before Create returns; the deferred build path is only a background marker,
so its failures never reach the caller's result. -/
theorem create_with_builder_pending_only (env : Env) (st : Store) (srv : Srv)
    (optNs : String) (hb : env.builder = true) :
    (let sp : StoredService := { mkService env srv optNs with status := Status.pending }
     (match env.writeErr sp with
      | some e => create env st srv optNs = (Except.error e, st, [Effect.storeWrite sp])
      | none => create env st srv optNs
          = (Except.ok (), upsert st sp, [Effect.storeWrite sp, Effect.goBuildAndRun sp])) ∧
     sp.status = Status.pending) ∧
    ∀ e ∈ (create env st srv optNs).2.2,
      (∀ s, e ≠ Effect.checkoutSource s) ∧ (∀ s, e ≠ Effect.rtCreate s) ∧
      (∀ s, e ≠ Effect.rtUpdate s) ∧ ∀ a b, e ≠ Effect.rtDelete a b := by
  constructor
  · constructor
    · cases hw : env.writeErr { mkService env srv optNs with status := Status.pending } with
      | some e => simp [create, hb, writeService, hw]
      | none => simp [create, hb, writeService, hw]
    · rfl
  · intro e he
    cases hw : env.writeErr { mkService env srv optNs with status := Status.pending } with
    | some e' =>
      simp [create, hb, writeService, hw] at he
      subst he
      refine ⟨fun s => ?_, fun s => ?_, fun s => ?_, fun a b => ?_⟩ <;> simp
    | none =>
      simp [create, hb, writeService, hw] at he
      rcases he with rfl | rfl <;>
        refine ⟨fun s => ?_, fun s => ?_, fun s => ?_, fun a b => ?_⟩ <;> simp

/-- An environment with a Builder configured. -/
def envB : Env :=
  { baseEnv with builder := true }

/-- Witness: create_with_builder_pending_only applied at a concrete input. -/
theorem create_with_builder_pending_only_witness :
    envB.builder = true ∧
    create envB [] srvA ("")
      = (Except.ok (),
          upsert [] { mkService envB srvA ("") with status := Status.pending },
          [Effect.storeWrite { mkService envB srvA ("") with status := Status.pending },
            Effect.goBuildAndRun { mkService envB srvA ("") with status := Status.pending }]) := by
  have h := create_with_builder_pending_only envB [] srvA (("")) rfl
  exact ⟨rfl, h.1.1⟩

/-- C4: Update and Delete on a (namespace, name, version) with no matching
Store record return NotFound, leave the Store unchanged, and make no
collaborator call at all (empty trace: no Store write or delete and no
Execution Backend mutation). -/
theorem update_delete_absent_notFound (env : Env) (st : Store) (srv : Srv) (optNs : String)
    (hre : env.readErr (nsOf optNs) = none)
    (habs : readServices st (nsOf optNs) srv.name (verOf srv.version) = []) :
    update env st srv optNs = (Except.error Err.notFound, st, []) ∧
    delete env st srv optNs = (Except.error Err.notFound, st, []) := by
  constructor
  · simp [update, hre, habs]
  · simp [delete, hre, habs]

/-- Witness: update_delete_absent_notFound applied at a concrete input. -/
theorem update_delete_absent_notFound_witness :
    (baseEnv.readErr (nsOf ("")) = none ∧
      readServices [] (nsOf ("")) srvA.name (verOf srvA.version) = []) ∧
    update baseEnv [] srvA ("") = (Except.error Err.notFound, [], []) ∧
    delete baseEnv [] srvA ("") = (Except.error Err.notFound, [], []) := by
  have h := update_delete_absent_notFound baseEnv [] srvA (("")) rfl rfl
  exact ⟨⟨rfl, rfl⟩, h.1, h.2⟩

/-- C5: Delete on an existing record deletes the Store record synchronously
before returning — the resulting Store holds no record under the deleted
key, so an immediately following Read no longer includes it — an Execution
Backend deletion error equal to the ErrNotFound sentinel is tolerated
(Delete still succeeds), and the only deferred work is the Blob Store
cleanup marker; no cleanup outcome is consulted for the result, so cleanup
failures are never returned to the caller. -/
theorem delete_existing_sync_store (env : Env) (st : Store) (srv : Srv) (optNs : String)
    (s0 : StoredService) (rest : List StoredService)
    (hre : env.readErr (nsOf optNs) = none)
    (hfound : readServices st (nsOf optNs) srv.name (verOf srv.version) = s0 :: rest)
    (hrt : env.rtDelete srv.name (verOf srv.version) = Except.ok () ∨
      env.rtDelete srv.name (verOf srv.version) = Except.error Err.notFound)
    (hdel : env.deleteErr s0 = none) :
    delete env st srv optNs
      = (Except.ok (),
          st.filter (fun r => !(keyMatches s0.ns s0.srv.name s0.srv.version r)),
          [Effect.rtDelete srv.name (verOf srv.version), Effect.storeDelete s0,
            Effect.goCleanupBlobStore s0]) ∧
    ∀ r ∈ (delete env st srv optNs).2.1, keyMatches s0.ns s0.srv.name s0.srv.version r = false := by
  have h1 : delete env st srv optNs
      = (Except.ok (),
          st.filter (fun r => !(keyMatches s0.ns s0.srv.name s0.srv.version r)),
          [Effect.rtDelete srv.name (verOf srv.version), Effect.storeDelete s0,
            Effect.goCleanupBlobStore s0]) := by
    rcases hrt with hrt | hrt <;> simp [delete, hre, hfound, hrt, deleteService, hdel]
  refine ⟨h1, ?_⟩
  rw [h1]
  intro r hr
  rw [List.mem_filter] at hr
  simpa using hr.2

/-- A record already present in the Store. -/
def recA : StoredService :=
  { srv := srvA, ns := defaultNamespace, status := Status.running, error := "", updatedAt := 7 }

/-- Witness: delete_existing_sync_store applied at a concrete input. -/
theorem delete_existing_sync_store_witness :
    (baseEnv.readErr (nsOf ("")) = none ∧
      readServices [recA] (nsOf ("")) srvA.name (verOf srvA.version) = recA :: [] ∧
      baseEnv.rtDelete srvA.name (verOf srvA.version) = Except.ok () ∧
      baseEnv.deleteErr recA = none) ∧
    delete baseEnv [recA] srvA ("")
      = (Except.ok (), [],
          [Effect.rtDelete srvA.name (verOf srvA.version), Effect.storeDelete recA,
            Effect.goCleanupBlobStore recA]) := by
  have h := delete_existing_sync_store baseEnv [recA] srvA (("")) recA [] rfl (by decide)
    (Or.inl rfl) rfl
  exact ⟨⟨rfl, by decide, rfl, rfl⟩, h.1.trans (by rfl)⟩

/-- C6: Create with no Builder.  An ErrAlreadyExists from the Execution
Backend is not treated as a failure: Create proceeds to the Store write and
succeeds, persisting the record; a successful backend create persists the
record carrying the status the backend reported; a checkout failure or any
other backend error is returned to the caller with no Store write in the
trace. -/
theorem create_no_builder_cases (env : Env) (st : Store) (srv : Srv) (optNs : String)
    (hb : env.builder = false) :
    (∀ src, env.checkout (mkService env srv optNs) = Except.ok src →
      env.rtCreate (withSource (mkService env srv optNs) src) = Except.error Err.alreadyExists →
      env.writeErr (withSource (mkService env srv optNs) src) = none →
      create env st srv optNs
        = (Except.ok (), upsert st (withSource (mkService env srv optNs) src),
            [Effect.checkoutSource (mkService env srv optNs),
              Effect.rtCreate (withSource (mkService env srv optNs) src),
              Effect.storeWrite (withSource (mkService env srv optNs) src)])) ∧
    (∀ src rst, env.checkout (mkService env srv optNs) = Except.ok src →
      env.rtCreate (withSource (mkService env srv optNs) src) = Except.ok rst →
      env.writeErr { withSource (mkService env srv optNs) src with status := rst } = none →
      create env st srv optNs
        = (Except.ok (),
            upsert st { withSource (mkService env srv optNs) src with status := rst },
            [Effect.checkoutSource (mkService env srv optNs),
              Effect.rtCreate (withSource (mkService env srv optNs) src),
              Effect.storeWrite { withSource (mkService env srv optNs) src with status := rst }])) ∧
    (∀ e, env.checkout (mkService env srv optNs) = Except.error e →
      create env st srv optNs
        = (Except.error e, st, [Effect.checkoutSource (mkService env srv optNs)])) ∧
    ∀ src e, env.checkout (mkService env srv optNs) = Except.ok src →
      env.rtCreate (withSource (mkService env srv optNs) src) = Except.error e →
      e ≠ Err.alreadyExists →
      create env st srv optNs
        = (Except.error e, st,
            [Effect.checkoutSource (mkService env srv optNs),
              Effect.rtCreate (withSource (mkService env srv optNs) src)]) := by
  refine ⟨?_, ?_, ?_, ?_⟩
  · intro src hco hrt hw
    simp [create, hb, hco, hrt, writeService, hw]
  · intro src rst hco hrt hw
    simp [create, hb, hco, hrt, writeService, hw]
  · intro e hco
    simp [create, hb, hco]
  · intro src e hco hrt hne
    simp [create, hb, hco, hrt, hne]

/-- Witness: create_no_builder_cases applied at a concrete input where the
backend reports Running. -/
theorem create_no_builder_cases_witness :
    (baseEnv.builder = false ∧
      baseEnv.checkout (mkService baseEnv srvA ("")) = Except.ok srvA.source ∧
      baseEnv.rtCreate (withSource (mkService baseEnv srvA ("")) srvA.source)
        = Except.ok Status.running ∧
      baseEnv.writeErr
        { withSource (mkService baseEnv srvA ("")) srvA.source with status := Status.running }
        = none) ∧
    create baseEnv [] srvA ("")
      = (Except.ok (),
          upsert []
            { withSource (mkService baseEnv srvA ("")) srvA.source with status := Status.running },
          [Effect.checkoutSource (mkService baseEnv srvA ("")),
            Effect.rtCreate (withSource (mkService baseEnv srvA ("")) srvA.source),
            Effect.storeWrite
              { withSource (mkService baseEnv srvA ("")) srvA.source
                  with status := Status.running }]) := by
  have h := (create_no_builder_cases baseEnv [] srvA (("")) rfl).2.1
    srvA.source Status.running rfl rfl rfl
  exact ⟨⟨rfl, rfl, rfl, rfl⟩, h⟩

/-- C7: Update on an existing record with no Builder resolves the new
source, updates the service in the Execution Backend synchronously, and
persists the record with status Starting and a cleared error message; a
checkout or backend-update failure is returned to the caller with the
Store left unchanged and no Store write in the trace. -/
theorem update_no_builder_cases (env : Env) (st : Store) (srv : Srv) (optNs : String)
    (s0 : StoredService) (rest : List StoredService)
    (hb : env.builder = false)
    (hre : env.readErr (nsOf optNs) = none)
    (hfound : readServices st (nsOf optNs) srv.name (verOf srv.version) = s0 :: rest) :
    (∀ src, env.checkout (replaceSource env s0 srv) = Except.ok src →
      env.rtUpdate (withSource (replaceSource env s0 srv) src) = Except.ok () →
      update env st srv optNs
        = ((writeService env st
              { withSource (replaceSource env s0 srv) src
                  with status := Status.starting, error := "" }).1,
            (writeService env st
              { withSource (replaceSource env s0 srv) src
                  with status := Status.starting, error := "" }).2,
            [Effect.checkoutSource (replaceSource env s0 srv),
              Effect.rtUpdate (withSource (replaceSource env s0 srv) src),
              Effect.storeWrite
                { withSource (replaceSource env s0 srv) src
                    with status := Status.starting, error := "" }]) ∧
        ({ withSource (replaceSource env s0 srv) src
            with status := Status.starting, error := "" } : StoredService).status
          = Status.starting ∧
        ({ withSource (replaceSource env s0 srv) src
            with status := Status.starting, error := "" } : StoredService).error = "") ∧
    (∀ e, env.checkout (replaceSource env s0 srv) = Except.error e →
      update env st srv optNs
        = (Except.error e, st, [Effect.checkoutSource (replaceSource env s0 srv)])) ∧
    ∀ src e, env.checkout (replaceSource env s0 srv) = Except.ok src →
      env.rtUpdate (withSource (replaceSource env s0 srv) src) = Except.error e →
      update env st srv optNs
        = (Except.error e, st,
            [Effect.checkoutSource (replaceSource env s0 srv),
              Effect.rtUpdate (withSource (replaceSource env s0 srv) src)]) := by
  refine ⟨?_, ?_, ?_⟩
  · intro src hco hrt
    refine ⟨?_, rfl, rfl⟩
    simp [update, hb, hre, hfound, hco, hrt]
  · intro e hco
    simp [update, hb, hre, hfound, hco]
  · intro src e hco hrt
    simp [update, hb, hre, hfound, hco, hrt]

/-- The incoming service of an Update call, carrying a new source. -/
def srvA2 : Srv :=
  { srvA with source := "github.com/m/b2" }

/-- Witness: update_no_builder_cases applied at a concrete input. -/
theorem update_no_builder_cases_witness :
    (baseEnv.builder = false ∧
      baseEnv.readErr (nsOf ("")) = none ∧
      readServices [recA] (nsOf ("")) srvA2.name (verOf srvA2.version) = recA :: [] ∧
      baseEnv.checkout (replaceSource baseEnv recA srvA2) = Except.ok srvA2.source ∧
      baseEnv.rtUpdate (withSource (replaceSource baseEnv recA srvA2) srvA2.source)
        = Except.ok ()) ∧
    update baseEnv [recA] srvA2 ("")
      = (Except.ok (),
          upsert [recA]
            { withSource (replaceSource baseEnv recA srvA2) srvA2.source
                with status := Status.starting, error := "" },
          [Effect.checkoutSource (replaceSource baseEnv recA srvA2),
            Effect.rtUpdate (withSource (replaceSource baseEnv recA srvA2) srvA2.source),
            Effect.storeWrite
              { withSource (replaceSource baseEnv recA srvA2) srvA2.source
                  with status := Status.starting, error := "" }]) := by
  have h := (update_no_builder_cases baseEnv [recA] srvA2 (("")) recA [] rfl rfl
    (by decide)).1 srvA2.source rfl rfl
  exact ⟨⟨rfl, rfl, by decide, rfl, rfl⟩, h.1.trans (by rfl)⟩

/-! Lemmas about the Read merge. -/

/-- A live record under the stored record's key overrides the merged
status. -/
theorem mergeOne_live_status (fmt : Nat → String) (s : StoredService) (rs : Srv) :
    (mergeOne fmt s (some rs)).status = rs.status := by
  simp only [mergeOne]
  split <;> rfl

/-- A non-zero stored UpdatedAt is exposed at metadata key "started". -/
theorem mergeOne_started (fmt : Nat → String) (s : StoredService) (live : Option Srv)
    (h : s.updatedAt ≠ 0) :
    mget (mergeOne fmt s live).metadata ("started") = some (fmt s.updatedAt) := by
  cases live with
  | none =>
    simp only [mergeOne, if_pos h]
    exact mget_mset_self _ _ _
  | some rs =>
    simp only [mergeOne, if_pos h]
    by_cases he : ((mget rs.metadata ("error")).getD ("")) ≠ ""
    · rw [if_pos he]
      rw [mget_mset_ne _ _ _ _ (by decide)]
      exact mget_mset_self _ _ _
    · rw [if_neg he]
      exact mget_mset_self _ _ _

/-- A non-empty stored error message is exposed at metadata key "error",
whatever the live record carries. -/
theorem mergeOne_stored_error (fmt : Nat → String) (s : StoredService) (live : Option Srv)
    (h : s.error ≠ "") :
    mget (mergeOne fmt s live).metadata ("error") = some s.error := by
  have hbase : ∀ md : Metadata,
      mget (if s.updatedAt ≠ 0 then mset (mset md ("error") s.error) ("started") (fmt s.updatedAt)
            else mset md ("error") s.error) ("error") = some s.error := by
    intro md
    by_cases hT : s.updatedAt ≠ 0
    · rw [if_pos hT, mget_mset_ne _ _ _ _ (by decide)]
      exact mget_mset_self _ _ _
    · rw [if_neg hT]
      exact mget_mset_self _ _ _
  cases live with
  | none =>
    simp only [mergeOne, if_pos h]
    by_cases hT : s.updatedAt ≠ 0
    · rw [if_pos hT, mget_mset_ne _ _ _ _ (by decide)]
      exact mget_mset_self _ _ _
    · rw [if_neg hT]
      exact mget_mset_self _ _ _
  | some rs =>
    simp only [mergeOne, if_pos h]
    by_cases he : ((mget rs.metadata ("error")).getD ("")) ≠ ""
    · rw [if_pos he, mget_mset_ne _ _ _ _ (by decide)]
      by_cases hT : s.updatedAt ≠ 0
      · rw [if_pos hT, mget_mset_ne _ _ _ _ (by decide)]
        exact mget_mset_self _ _ _
      · rw [if_neg hT]
        exact mget_mset_self _ _ _
    · rw [if_neg he]
      by_cases hT : s.updatedAt ≠ 0
      · rw [if_pos hT, mget_mset_ne _ _ _ _ (by decide)]
        exact mget_mset_self _ _ _
      · rw [if_neg hT]
        exact mget_mset_self _ _ _

/-- A non-empty live error annotation is exposed at metadata key
"status". -/
theorem mergeOne_live_error (fmt : Nat → String) (s : StoredService) (rs : Srv) (em : String)
    (h : mget rs.metadata ("error") = some em) (hem : em ≠ "") :
    mget (mergeOne fmt s (some rs)).metadata ("status") = some em := by
  simp only [mergeOne, h]
  rw [if_pos (by simpa using hem)]
  simp only [h]
  exact mget_mset_self _ _ _

/-- Read with a successful Store query and backend query returns the merge
of the stored records with the live records. -/
theorem read_ok (env : Env) (st : Store) (optNs nm vr : String) (rs : List Srv)
    (hre : env.readErr (nsOf optNs) = none)
    (hrt : env.rtRead (nsOf optNs) nm vr = Except.ok rs) :
    read env st optNs nm vr
      = Except.ok (readMerge env.rfc3339 (readServices st (nsOf optNs) nm vr) rs) := by
  simp [read, hre, hrt]

/-- Element i of the Read merge is the merge of element i of the stored
records with its live lookup. -/
theorem readMerge_get (fmt : Nat → String) (srvs : List StoredService) (rs : List Srv)
    (i : Nat) (hi : i < srvs.length) (hl : i < (readMerge fmt srvs rs).length) :
    (readMerge fmt srvs rs).get ⟨i, hl⟩
      = mergeOne fmt (srvs.get ⟨i, hi⟩)
          (lookupLive rs (skey (srvs.get ⟨i, hi⟩).srv.name (srvs.get ⟨i, hi⟩).srv.version)) := by
  simp [readMerge]

/-- C2: a stored record with non-zero UpdatedAt = T whose live lookup under
its name:version key reports status Running is returned by Read with
status Running and with metadata key "started" holding T formatted as
RFC3339. -/
theorem read_running_and_started (env : Env) (st : Store) (optNs nm vr : String)
    (rs : List Srv) (i : Nat)
    (hre : env.readErr (nsOf optNs) = none)
    (hrt : env.rtRead (nsOf optNs) nm vr = Except.ok rs)
    (hi : i < (readServices st (nsOf optNs) nm vr).length)
    (hT : ((readServices st (nsOf optNs) nm vr).get ⟨i, hi⟩).updatedAt ≠ 0)
    (live : Srv)
    (hlive : lookupLive rs
        (skey ((readServices st (nsOf optNs) nm vr).get ⟨i, hi⟩).srv.name
          ((readServices st (nsOf optNs) nm vr).get ⟨i, hi⟩).srv.version) = some live)
    (hrun : live.status = Status.running) :
    ∃ out, read env st optNs nm vr = Except.ok out ∧
      ∃ hl : i < out.length,
        (out.get ⟨i, hl⟩).status = Status.running ∧
        mget (out.get ⟨i, hl⟩).metadata ("started")
          = some (env.rfc3339 ((readServices st (nsOf optNs) nm vr).get ⟨i, hi⟩).updatedAt) := by
  refine ⟨readMerge env.rfc3339 (readServices st (nsOf optNs) nm vr) rs,
    read_ok env st optNs nm vr rs hre hrt, ?_⟩
  have hl : i < (readMerge env.rfc3339 (readServices st (nsOf optNs) nm vr) rs).length := by
    simpa [readMerge] using hi
  refine ⟨hl, ?_, ?_⟩
  · rw [readMerge_get env.rfc3339 _ rs i hi hl, hlive, mergeOne_live_status]
    exact hrun
  · rw [readMerge_get env.rfc3339 _ rs i hi hl, hlive]
    exact mergeOne_started _ _ _ hT

/-- A live record mirroring the stored one, as the backend reports it. -/
def liveA : Srv :=
  { name := "billing", version := "latest", source := "", metadata := [], status := Status.running }

/-- An environment whose backend reports liveA as running. -/
def envR : Env :=
  { baseEnv with rtRead := fun _ _ _ => Except.ok [liveA] }

/-- Witness: read_running_and_started applied at a concrete input. -/
theorem read_running_and_started_witness :
    (envR.readErr (nsOf ("")) = none ∧
      envR.rtRead (nsOf ("")) ("") ("") = Except.ok [liveA] ∧
      0 < (readServices [recA] (nsOf ("")) ("") ("")).length) ∧
    ∃ out, read envR [recA] ("") ("") ("") = Except.ok out ∧
      ∃ hl : 0 < out.length,
        (out.get ⟨0, hl⟩).status = Status.running ∧
        mget (out.get ⟨0, hl⟩).metadata ("started") = some (envR.rfc3339 7) := by
  refine ⟨⟨rfl, rfl, by decide⟩, ?_⟩
  exact read_running_and_started envR [recA] ("") ("") ("") [liveA] 0 rfl rfl
    (by decide) (by decide) liveA (by decide) rfl

/-- C3 amended: when the live lookup under the stored record's name:version
key succeeds, Read's merged result takes the live status; a non-empty live
error annotation is exposed under the merged metadata "status" key — not
the "error" key — and a non-empty stored error message remains exposed
under metadata "error". -/
theorem read_live_overrides (env : Env) (st : Store) (optNs nm vr : String)
    (rs : List Srv) (i : Nat)
    (hre : env.readErr (nsOf optNs) = none)
    (hrt : env.rtRead (nsOf optNs) nm vr = Except.ok rs)
    (hi : i < (readServices st (nsOf optNs) nm vr).length)
    (live : Srv) (em : String)
    (hlive : lookupLive rs
        (skey ((readServices st (nsOf optNs) nm vr).get ⟨i, hi⟩).srv.name
          ((readServices st (nsOf optNs) nm vr).get ⟨i, hi⟩).srv.version) = some live)
    (herr : mget live.metadata ("error") = some em)
    (hem : em ≠ "") :
    ∃ out, read env st optNs nm vr = Except.ok out ∧
      ∃ hl : i < out.length,
        (out.get ⟨i, hl⟩).status = live.status ∧
        mget (out.get ⟨i, hl⟩).metadata ("status") = some em ∧
        (((readServices st (nsOf optNs) nm vr).get ⟨i, hi⟩).error ≠ "" →
          mget (out.get ⟨i, hl⟩).metadata ("error")
            = some ((readServices st (nsOf optNs) nm vr).get ⟨i, hi⟩).error) := by
  refine ⟨readMerge env.rfc3339 (readServices st (nsOf optNs) nm vr) rs,
    read_ok env st optNs nm vr rs hre hrt, ?_⟩
  have hl : i < (readMerge env.rfc3339 (readServices st (nsOf optNs) nm vr) rs).length := by
    simpa [readMerge] using hi
  refine ⟨hl, ?_, ?_, ?_⟩
  · rw [readMerge_get env.rfc3339 _ rs i hi hl, hlive, mergeOne_live_status]
  · rw [readMerge_get env.rfc3339 _ rs i hi hl, hlive]
    exact mergeOne_live_error _ _ _ _ herr hem
  · intro hse
    rw [readMerge_get env.rfc3339 _ rs i hi hl, hlive]
    exact mergeOne_stored_error _ _ _ hse

/-- A live record carrying an error annotation. -/
def liveC : Srv :=
  { name := "billing", version := "latest", source := ""
    metadata := [(("error"), ("boom"))], status := Status.error }

/-- A stored record carrying its own error message. -/
def recC : StoredService :=
  { srv := srvA, ns := defaultNamespace, status := Status.running, error := "old", updatedAt := 7 }

/-- An environment whose backend reports liveC. -/
def envC : Env :=
  { baseEnv with rtRead := fun _ _ _ => Except.ok [liveC] }

/-- The record Read returns for recC merged with liveC. -/
def mergedC : Srv :=
  { name := "billing", version := "latest", source := "github.com/m/b"
    metadata := [(("error"), ("old")), (("started"), ("7")), (("status"), ("boom"))]
    status := Status.error }

/-- C3 counterexample: a stored record with error "old" merged with a live
record whose error annotation is "boom" is returned by Read with the live
annotation under metadata key "status" and the stored error still under
metadata key "error" — the live annotation does not land under "error" and
does not override the stored error message there, refuting the claim as
stated. -/
theorem read_live_error_counterexample :
    read envC [recC] ("") ("") ("") = Except.ok [mergedC] ∧
    mget mergedC.metadata ("error") = some ("old") ∧
    mget mergedC.metadata ("status") = some ("boom") ∧
    mget mergedC.metadata ("error") ≠ some ("boom") := by
  refine ⟨rfl, rfl, rfl, by decide⟩

/-- Witness: read_live_overrides applied at a concrete input. -/
theorem read_live_overrides_witness :
    (envC.readErr (nsOf ("")) = none ∧
      envC.rtRead (nsOf ("")) ("") ("") = Except.ok [liveC] ∧
      0 < (readServices [recC] (nsOf ("")) ("") ("")).length ∧
      mget liveC.metadata ("error") = some ("boom")) ∧
    ∃ out, read envC [recC] ("") ("") ("") = Except.ok out ∧
      ∃ hl : 0 < out.length,
        (out.get ⟨0, hl⟩).status = liveC.status ∧
        mget (out.get ⟨0, hl⟩).metadata ("status") = some ("boom") ∧
        (((readServices [recC] (nsOf ("")) ("") ("")).get ⟨0, by decide⟩).error ≠ "" →
          mget (out.get ⟨0, hl⟩).metadata ("error")
            = some ((readServices [recC] (nsOf ("")) ("") ("")).get ⟨0, by decide⟩).error) := by
  refine ⟨⟨rfl, rfl, by decide, rfl⟩, ?_⟩
  exact read_live_overrides envC [recC] ("") ("") ("") [liveC] 0 rfl rfl
    (by decide) liveC ("boom") (by decide) rfl (by decide)

/-! Lemmas about the reconciliation pass. -/

/-- A create attempt emitted while handling one stored record identifies
the record and certifies its eligibility: it is not live under its
name:version key and its status is none of Error, Building, Stopped. -/
theorem watchSrv_rtCreate_mem (env : Env) (running : List Srv) (s' s : StoredService)
    (h : Effect.rtCreate s ∈ watchSrv env running s') :
    s' = s ∧ lookupLive running (skey s.srv.name s.srv.version) = none ∧
    s.status ≠ Status.error ∧ s.status ≠ Status.building ∧ s.status ≠ Status.stopped := by
  unfold watchSrv at h
  cases hlk : lookupLive running (skey s'.srv.name s'.srv.version) with
  | some v => rw [hlk] at h; simp at h
  | none =>
    rw [hlk] at h
    simp only [Option.isSome_none, Bool.false_eq_true, if_false] at h
    by_cases h1 : s'.status = Status.error
    · rw [if_pos h1] at h; simp at h
    · rw [if_neg h1] at h
      by_cases h2 : s'.status = Status.building
      · rw [if_pos h2] at h; simp at h
      · rw [if_neg h2] at h
        by_cases h3 : s'.status = Status.stopped
        · rw [if_pos h3] at h; simp at h
        · rw [if_neg h3] at h
          have hss : s' = s := by
            cases hrt : env.rtCreate s' <;> rw [hrt] at h <;> simp at h <;> exact h.symm
          subst hss
          exact ⟨rfl, hlk, h1, h2, h3⟩

/-- Every create attempt of the inner service loop comes from some record
of the list. -/
theorem watchSrvs_mem (env : Env) (running : List Srv) (l : List StoredService) (e : Effect)
    (h : e ∈ watchSrvs env running l) :
    ∃ s' ∈ l, e ∈ watchSrv env running s' := by
  induction l with
  | nil => simp [watchSrvs] at h
  | cons a t ih =>
    rw [watchSrvs] at h
    rcases List.mem_append.mp h with h | h
    · exact ⟨a, List.mem_cons_self _ _, h⟩
    · obtain ⟨s', hs', hm⟩ := ih h
      exact ⟨s', List.mem_cons_of_mem _ hs', hm⟩

/-- The effects of a record eligible in its namespace's loop are part of
the inner service loop's effects. -/
theorem mem_watchSrvs (env : Env) (running : List Srv) (l : List StoredService)
    (s : StoredService) (e : Effect) (hs : s ∈ l) (he : e ∈ watchSrv env running s) :
    e ∈ watchSrvs env running l := by
  induction l with
  | nil => simp at hs
  | cons a t ih =>
    rw [watchSrvs]
    rcases List.mem_cons.mp hs with rfl | hs'
    · exact List.mem_append_left _ he
    · exact List.mem_append_right _ (ih hs')

/-- Every effect of the namespace loop comes from a namespace of the list
whose Store read succeeded, via the inner service loop over that
namespace's stored records. -/
theorem watchLoop_mem (env : Env) (st : Store) (nss : List String) (e : Effect)
    (h : e ∈ watchLoop env st nss) :
    ∃ n ∈ nss, env.readErr n = none ∧
      e ∈ watchSrvs env (env.watchLive n) (readServices st n ("") ("")) := by
  induction nss with
  | nil => simp [watchLoop] at h
  | cons a t ih =>
    rw [watchLoop] at h
    cases hra : env.readErr a with
    | some err => rw [hra] at h; simp at h
    | none =>
      rw [hra] at h
      rcases List.mem_append.mp h with h | h
      · exact ⟨a, List.mem_cons_self _ _, hra, h⟩
      · obtain ⟨n, hn, h1, h2⟩ := ih h
        exact ⟨n, List.mem_cons_of_mem _ hn, h1, h2⟩

/-- A record returned by a namespace's Store query belongs to that
namespace and to the Store. -/
theorem readServices_ns (st : Store) (n nm vr : String) (s : StoredService)
    (h : s ∈ readServices st n nm vr) : s.ns = n ∧ s ∈ st := by
  rw [readServices, List.mem_filter] at h
  have h2 := h.2
  simp only [Bool.and_eq_true, decide_eq_true_eq] at h2
  exact ⟨h2.1, h.1⟩

/-- C8: every create attempt of a reconciliation pass is for a stored
record that is not reported live by the Execution Backend under its
name:version key in its namespace and whose stored status is none of
Error, Building, Stopped — so a record in one of those statuses, or one
already live, is never (re)created. -/
theorem watch_creates_only_eligible (env : Env) (st : Store) (s : StoredService)
    (h : Effect.rtCreate s ∈ watchServices env st) :
    s ∈ st ∧
    lookupLive (env.watchLive s.ns) (skey s.srv.name s.srv.version) = none ∧
    s.status ≠ Status.error ∧ s.status ≠ Status.building ∧ s.status ≠ Status.stopped := by
  unfold watchServices at h
  cases hls : env.listNs with
  | error e => rw [hls] at h; simp at h
  | ok nss =>
    rw [hls] at h
    obtain ⟨n, hn, hre, hm⟩ := watchLoop_mem env st nss _ h
    obtain ⟨s', hs', hmem⟩ := watchSrvs_mem env (env.watchLive n) _ _ hm
    obtain ⟨hss, hlk, h1, h2, h3⟩ := watchSrv_rtCreate_mem env (env.watchLive n) s' s hmem
    subst hss
    obtain ⟨hns, hst⟩ := readServices_ns st n ("") ("") s' hs'
    rw [hns]
    exact ⟨hst, hlk, h1, h2, h3⟩

/-- Witness: watch_creates_only_eligible applied at a concrete input where
the pass attempts to restart recA. -/
theorem watch_creates_only_eligible_witness :
    Effect.rtCreate recA ∈ watchServices baseEnv [recA] ∧
    recA ∈ ([recA] : Store) ∧
    lookupLive (baseEnv.watchLive recA.ns) (skey recA.srv.name recA.srv.version) = none ∧
    recA.status ≠ Status.error ∧ recA.status ≠ Status.building ∧
    recA.status ≠ Status.stopped := by
  have hmem : Effect.rtCreate recA ∈ watchServices baseEnv [recA] := by decide
  have h := watch_creates_only_eligible baseEnv [recA] recA hmem
  exact ⟨hmem, h⟩

/-- C10: in a reconciliation pass, a failing Store read for a namespace
ends the pass, so namespaces after it in the enumeration order contribute
nothing; by contrast a failing backend create is only logged — the create
attempt of every eligible record of a successfully read namespace is in
the pass's trace, whatever the backend answers. -/
theorem watch_read_failure_aborts_pass (env : Env) (st : Store) :
    (∀ pre n post e, env.readErr n = some e → (∀ m ∈ pre, env.readErr m = none) →
      watchLoop env st (pre ++ n :: post) = watchLoop env st pre) ∧
    ∀ n rest s, env.readErr n = none → s ∈ readServices st n ("") ("") →
      lookupLive (env.watchLive n) (skey s.srv.name s.srv.version) = none →
      s.status ≠ Status.error → s.status ≠ Status.building → s.status ≠ Status.stopped →
      Effect.rtCreate s ∈ watchLoop env st (n :: rest) := by
  constructor
  · intro pre n post e hfail
    induction pre with
    | nil =>
      intro _
      simp only [List.nil_append, watchLoop, hfail]
    | cons a t ih =>
      intro hpre
      have ha : env.readErr a = none := hpre a (List.mem_cons_self _ _)
      have h1 : watchLoop env st (a :: (t ++ n :: post))
          = watchSrvs env (env.watchLive a) (readServices st a ("") (""))
              ++ watchLoop env st (t ++ n :: post) := by
        rw [watchLoop, ha]
      have h2 : watchLoop env st (a :: t)
          = watchSrvs env (env.watchLive a) (readServices st a ("") (""))
              ++ watchLoop env st t := by
        rw [watchLoop, ha]
      rw [List.cons_append, h1, h2, ih (fun m hm => hpre m (List.mem_cons_of_mem _ hm))]
  · intro n rest s hre hs hlk h1 h2 h3
    have he : Effect.rtCreate s ∈ watchSrv env (env.watchLive n) s := by
      unfold watchSrv
      rw [if_neg (by simp [hlk]), if_neg h1, if_neg h2, if_neg h3]
      cases env.rtCreate s <;> simp
    have hin : Effect.rtCreate s
        ∈ watchSrvs env (env.watchLive n) (readServices st n ("") ("")) :=
      mem_watchSrvs env (env.watchLive n) _ s _ hs he
    rw [watchLoop, hre]
    exact List.mem_append_left _ hin

/-- An environment in which reading the services of namespace "bad"
fails. -/
def envF : Env :=
  { baseEnv with readErr := fun n => if n = ("bad") then some (Err.other ("x")) else none }

/-- Witness: watch_read_failure_aborts_pass applied at concrete inputs —
the "bad" namespace ends envF's pass before "next" is reached, while in
baseEnv the eligible record recA is attempted. -/
theorem watch_read_failure_aborts_pass_witness :
    (envF.readErr ("bad") = some (Err.other ("x")) ∧
      baseEnv.readErr defaultNamespace = none) ∧
    watchLoop envF [] (("bad") :: ("next") :: []) = watchLoop envF [] [] ∧
    Effect.rtCreate recA ∈ watchLoop baseEnv [recA] (defaultNamespace :: []) := by
  refine ⟨⟨rfl, rfl⟩, ?_, ?_⟩
  · exact (watch_read_failure_aborts_pass envF []).1 [] ("bad") [("next")]
      (Err.other ("x")) rfl (by simp)
  · exact (watch_read_failure_aborts_pass baseEnv [recA]).2 defaultNamespace [] recA rfl
      (by decide) rfl (by decide) (by decide) (by decide)

end Micro
